import Mathlib

/-!
Verification of the local persistence and access-control core of the
note-taking application (record store, write scheduler, key-derivation
and protection manager).

The TypeScript source is shallowly embedded:

* JavaScript strings are Lean `String`s viewed as their sequence of code
  units (`String.data`); `.length`, `.slice` and `charCodeAt` are
  index-based on that sequence.
* A JavaScript `Date` is its epoch-milliseconds value (`Int`).
  `Date.prototype.toISOString` and `new Date(isoText)` are platform
  primitives, modelled as an injective textual instant encoding of the
  milliseconds value together with its exact parser (the platform's
  ISO-8601 encoding round-trips at millisecond precision; the model
  keeps that contract and the fact that the encoding of any instant is
  a nonempty string, which is all the repository code relies on).
* `localStorage` is a partial map from keys to strings; JavaScript
  truthiness of `getItem` results (null and the empty string are falsy)
  is modelled explicitly.
* The IndexedDB object store keyed by `id` is a list of stored records
  kept in ascending key order: `put` inserts or replaces at the key's
  position and `getAll` returns the records in key order, as IndexedDB
  does.  Key comparison is code-unit lexicographic order.
* Async functions that cannot fail in the modelled paths are pure
  functions; fallible backend opening is an explicit `idbAvailable`
  flag on the storage state, and the `try/catch` fallbacks of the
  source become the corresponding case splits.
* The biometric gate and the PBKDF2 primitive of Web Crypto are
  platform collaborators: the gate's verdict is an explicit boolean
  input, and the salted derivation is modelled as an injective pairing
  of password and salt (the code relies only on `derive p s = derive q s
  ↔ p = q` and on hashes being nonempty).
-/

namespace NotesCore

/-! ## Platform model: instant serialization (`Date.toISOString` / `new Date`) -/

/-- Little-endian decimal digits of `n`, computed with explicit fuel so that
the kernel can evaluate it (fuel `n` always suffices). -/
def natDigitsAux : Nat → Nat → List Nat
  | 0, _ => []
  | _ + 1, 0 => []
  | fuel + 1, n + 1 => ((n + 1) % 10) :: natDigitsAux fuel ((n + 1) / 10)

/-- Little-endian decimal digits of `n`. -/
def natDigits (n : Nat) : List Nat := natDigitsAux n n

/-- Value of a little-endian decimal digit list. -/
def digitsVal : List Nat → Nat
  | [] => 0
  | d :: ds => d + 10 * digitsVal ds

/-- The character for the decimal digit `d`. -/
def digitChar (d : Nat) : Char := Char.ofNat (48 + d)

/-- The decimal value of a digit character. -/
def charVal (c : Char) : Nat := c.toNat - 48

/-- Big-endian decimal character rendering of a natural number; nonempty,
`"0"` for zero. -/
def natChars (n : Nat) : List Char :=
  if n = 0 then ['0'] else ((natDigits n).map digitChar).reverse

/-- Platform model of `Date.prototype.toISOString`: an injective, always
nonempty textual encoding of the instant's epoch-milliseconds value. -/
def toISOString (ms : Int) : String :=
  if ms < 0 then ⟨'-' :: natChars ms.natAbs⟩ else ⟨natChars ms.natAbs⟩

/-- Value of a big-endian digit character list. -/
def charsNat (l : List Char) : Nat := digitsVal (l.reverse.map charVal)

/-- Platform model of `new Date(s)` applied to a serialized instant string:
the exact parser of `toISOString`. -/
def dateFromISO (s : String) : Int :=
  if s.data.head? = some '-' then -(charsNat (s.data.drop 1) : Nat)
  else (charsNat s.data : Nat)

/-! ## Data model

The `Note` record type lives in `types/note.ts`, which is not among the
repository files. Modelled from the spec: §3 gives the unit of persistence
as id, content, title, `type`, color, optional folder relation, required
`createdAt`/`updatedAt`, optional lifecycle timestamps `archivedAt`,
`deletedAt`, `reminderTime`, and an ordered sequence of voice recordings
`{audio reference, timestamp}`. Timestamps are `Date`s in memory. -/

/-- A voice recording attached to a note (spec §3: audio reference plus
timestamp). -/
structure VoiceRecording where
  audioUrl : String
  timestamp : Int
  deriving DecidableEq, Repr

/-- The in-memory note record (spec §3). -/
structure Note where
  id : String
  title : String
  content : String
  type : String
  color : Option String
  folderId : Option String
  createdAt : Int
  updatedAt : Int
  archivedAt : Option Int
  deletedAt : Option Int
  reminderTime : Option Int
  voiceRecordings : List VoiceRecording
  deriving DecidableEq, Repr

/-- A voice recording as stored: timestamp serialized to instant text
(`r.timestamp.toISOString()` in `saveNotesToDB`). -/
structure StoredVoiceRecording where
  audioUrl : String
  timestamp : String
  deriving DecidableEq, Repr

/-- The persistence envelope written by `saveNotesToDB` /
`saveNoteToDBSingle`: the note with every timestamp field serialized. -/
structure StoredNote where
  id : String
  title : String
  content : String
  type : String
  color : Option String
  folderId : Option String
  createdAt : String
  updatedAt : String
  archivedAt : Option String
  deletedAt : Option String
  reminderTime : Option String
  voiceRecordings : List StoredVoiceRecording
  deriving DecidableEq, Repr

/-- JavaScript truthiness of a `localStorage.getItem` / record field result:
`null`/`undefined` and the empty string are falsy. -/
def jsTruthy : Option String → Bool
  | none => false
  | some s => !(s == "")

/-- The body of the `put` payload in `saveNotesToDB` and
`saveNoteToDBSingle`: spread the note and serialize every timestamp field
(`?.toISOString()` on the optional ones, recordings mapped). -/
def serializeNote (n : Note) : StoredNote :=
  { id := n.id
    title := n.title
    content := n.content
    type := n.type
    color := n.color
    folderId := n.folderId
    createdAt := toISOString n.createdAt
    updatedAt := toISOString n.updatedAt
    archivedAt := n.archivedAt.map toISOString
    deletedAt := n.deletedAt.map toISOString
    reminderTime := n.reminderTime.map toISOString
    voiceRecordings := n.voiceRecordings.map fun r =>
      { audioUrl := r.audioUrl, timestamp := toISOString r.timestamp } }

/-- `x ? new Date(x) : undefined` on an optional stored timestamp field. -/
def reviveOpt (o : Option String) : Option Int :=
  if jsTruthy o then some (dateFromISO (o.getD "")) else none

/-- The body of the revival map in `loadNotesFromDB`: `new Date` on the
required timestamps, truthiness-guarded revival of the optional ones,
recordings mapped (`?.map(...) || []`). -/
def reviveNote (s : StoredNote) : Note :=
  { id := s.id
    title := s.title
    content := s.content
    type := s.type
    color := s.color
    folderId := s.folderId
    createdAt := dateFromISO s.createdAt
    updatedAt := dateFromISO s.updatedAt
    archivedAt := reviveOpt s.archivedAt
    deletedAt := reviveOpt s.deletedAt
    reminderTime := reviveOpt s.reminderTime
    voiceRecordings := s.voiceRecordings.map fun r =>
      { audioUrl := r.audioUrl, timestamp := dateFromISO r.timestamp } }

/-! ## Record store state

The durable state visible to `notesDB` consists of the IndexedDB object
store `notes` (primary backend, whose opening can fail: `idbAvailable`),
and the two legacy localStorage entries it touches: the flat `notes` list
and the `notes_migrated_to_indexeddb` flag.  The legacy `notes` entry holds
a JSON-serialized list; `JSON.parse`/`JSON.stringify` of that list is
modelled by storing the structured records themselves. -/

/-- A record of the legacy flat list. Modelled from the spec: the legacy
store predates the indexed backend (§4.5); its records carry the fields the
legacy reader (`loadNotesFromLocalStorage`) revives — serialized
`createdAt`/`updatedAt` and voice recordings (possibly absent) — the
lifecycle timestamps postdating it. -/
structure LegacyStoredNote where
  id : String
  title : String
  content : String
  type : String
  color : Option String
  folderId : Option String
  createdAt : String
  updatedAt : String
  voiceRecordings : Option (List StoredVoiceRecording)
  deriving DecidableEq, Repr

/-- The durable storage state of the record store. -/
structure Storage where
  idbAvailable : Bool
  idbNotes : List StoredNote
  localNotes : Option (List LegacyStoredNote)
  migratedFlag : Option String
  deriving DecidableEq, Repr

/-- Code-unit lexicographic comparison, the order IndexedDB uses for
string keys. -/
def strLtb : List Char → List Char → Bool
  | [], [] => false
  | [], _ :: _ => true
  | _ :: _, [] => false
  | a :: as, b :: bs =>
    if a.toNat < b.toNat then true
    else if b.toNat < a.toNat then false
    else strLtb as bs

/-- Key order of the `notes` object store (keyPath `id`). -/
def idLt (a b : String) : Bool := strLtb a.data b.data

/-- Platform model of `store.put` on the object store keyed by `id`:
insert or replace at the key's position of the key-ordered record list. -/
def putNote : List StoredNote → StoredNote → List StoredNote
  | [], n => [n]
  | m :: rest, n =>
    if idLt n.id m.id then n :: m :: rest
    else if n.id = m.id then n :: rest
    else m :: putNote rest n

/-- The revival map of `loadNotesFromLocalStorage`: spread, revive
`createdAt`/`updatedAt` and the recordings (`?.map(...) || []`). -/
def reviveLegacyNote (n : LegacyStoredNote) : Note :=
  { id := n.id
    title := n.title
    content := n.content
    type := n.type
    color := n.color
    folderId := n.folderId
    createdAt := dateFromISO n.createdAt
    updatedAt := dateFromISO n.updatedAt
    archivedAt := none
    deletedAt := none
    reminderTime := none
    voiceRecordings := (n.voiceRecordings.getD []).map fun r =>
      { audioUrl := r.audioUrl, timestamp := dateFromISO r.timestamp } }

/-- `loadNotesFromLocalStorage`: read the legacy `notes` entry, parse and
revive it; `[]` when absent (or unparseable). -/
def loadNotesFromLocalStorage (st : Storage) : List Note :=
  match st.localNotes with
  | some l => l.map reviveLegacyNote
  | none => []

/-- `loadNotesFromDB`: read and revive every record of the primary backend;
on backend unavailability (`openDB` rejects) fall back to the legacy
localStorage list. -/
def loadNotesFromDB (st : Storage) : List Note :=
  if st.idbAvailable then st.idbNotes.map reviveNote
  else loadNotesFromLocalStorage st

/-- `saveNotesToDB`: in one readwrite transaction, clear the object store
and `put` the serialized form of every note; on backend unavailability do
not fall back to localStorage — log and resolve leaving the durable state
unchanged. -/
def saveNotesToDB (st : Storage) (notes : List Note) : Storage :=
  if st.idbAvailable then
    { st with idbNotes := (notes.map serializeNote).foldl putNote [] }
  else st

/-- `migrateNotesToIndexedDB`: one-shot migration gated by the persisted
flag. Already migrated: purge the legacy entry and return false. Otherwise
read the legacy list; if nonempty, save it to the primary backend, set the
flag, purge the legacy entry, return true; if empty, set the flag and
return false. -/
def migrateNotesToIndexedDB (st : Storage) : Storage × Bool :=
  if st.migratedFlag = some "true" then
    ({ st with localNotes := none }, false)
  else
    let notes := loadNotesFromLocalStorage st
    if notes.length > 0 then
      let st1 := saveNotesToDB st notes
      ({ st1 with migratedFlag := some "true", localNotes := none }, true)
    else
      ({ st with migratedFlag := some "true" }, false)

/-! ## Write scheduler (`debouncedSaveNotes`)

The module keeps a single timer handle `saveTimeout`; a call clears any
pending timer and schedules `saveNotesToDB(notes)` after the quiet delay.
The cooperative timeline is a sequence of events: a `call` (the debounced
request; issuing calls closer together than the quiet interval means no
expiry event occurs between them) and a `tick` (the pending timer, if any,
expires and fires the durable write). -/

/-- An event of the scheduler's single-threaded timeline. -/
inductive SchedEvent where
  | call (notes : List Note)
  | tick
  deriving DecidableEq, Repr

/-- Scheduler world: the durable storage, the single pending-timer slot
(`saveTimeout`, at most one by construction of the module state), and a
count of the durable writes fired so far. -/
structure SchedWorld where
  store : Storage
  pending : Option (List Note)
  writeCount : Nat
  deriving DecidableEq, Repr

/-- One scheduler step: `debouncedSaveNotes` clears the pending timer and
schedules its own payload; an expiry fires `saveNotesToDB` on the pending
payload and empties the slot. -/
def schedStep (w : SchedWorld) : SchedEvent → SchedWorld
  | .call notes => { w with pending := some notes }
  | .tick =>
    match w.pending with
    | some notes =>
      { w with
        store := saveNotesToDB w.store notes
        pending := none
        writeCount := w.writeCount + 1 }
    | none => w

/-- Run a timeline of scheduler events. -/
def schedRun (w : SchedWorld) (evs : List SchedEvent) : SchedWorld :=
  evs.foldl schedStep w

/-! ## Chunking (`splitLargeContent`)

The source is a `while (start < content.length)` loop pushing
`content.slice(start, start + maxChunkSize)` and advancing `start` by
`maxChunkSize`.  The loop is embedded with explicit fuel: `none` means the
fuel was exhausted with the loop still running, so termination of the
source loop is exactly the existence of a sufficient fuel. -/

/-- JavaScript `String.prototype.slice` with its negative-index clamping,
index-based on the code-unit sequence. -/
def jsSlice (s : String) (a b : Int) : String :=
  let n : Int := s.data.length
  let st := (if a < 0 then max (n + a) 0 else min a n).toNat
  let en := (if b < 0 then max (n + b) 0 else min b n).toNat
  ⟨(s.data.take en).drop st⟩

/-- The `while` loop of `splitLargeContent`, fuelled. -/
def splitLoop (content : String) (k : Int) : Nat → Int → Option (List String)
  | 0, start =>
    if start < (content.data.length : Int) then none else some []
  | fuel + 1, start =>
    if start < (content.data.length : Int) then
      (splitLoop content k fuel (start + k)).map
        (fun rest => jsSlice content start (start + k) :: rest)
    else some []

/-- `splitLargeContent(content, maxChunkSize)` with fuel `length + 1`,
always sufficient when the chunk size is positive. -/
def splitLargeContent (content : String) (k : Int) : Option (List String) :=
  splitLoop content k (content.data.length + 1) 0

/-- In-order concatenation of a chunk list. -/
def concatChunks : List String → String
  | [] => ""
  | s :: rest => s ++ concatChunks rest

/-- Every chunk except possibly the last has length exactly `k`; the last
has length between 1 and `k`. -/
def goodChunks (k : Nat) : List String → Prop
  | [] => True
  | [s] => 1 ≤ s.data.length ∧ s.data.length ≤ k
  | s :: rest => s.data.length = k ∧ goodChunks k rest

/-! ## Protection manager (`noteProtection.ts`)

`localStorage` is a partial map from keys to strings.  The biometric
gate's verdict (`authenticateWithBiometric`, a platform collaborator) is
an explicit boolean input `bio`; when the stored flag disables biometrics
the source never consults the gate, and correspondingly `bio` is unused on
those paths.  Fresh salts come from the platform RNG
(`crypto.getRandomValues`) and are threaded as explicit `freshSalt`
arguments (the platform guarantees them nonempty: 32 hex characters). -/

/-- The protection manager's key-value store. -/
def LS := String → Option String

/-- `localStorage.setItem`. -/
def lsSet (st : LS) (k v : String) : LS :=
  fun x => if x = k then some v else st x

/-- `localStorage.removeItem`. -/
def lsRemove (st : LS) (k : String) : LS :=
  fun x => if x = k then none else st x

/-- An empty key-value store. -/
def lsEmpty : LS := fun _ => none

def HIDDEN_NOTES_PASSWORD_KEY : String := "npd_hidden_notes_password"
def HIDDEN_NOTES_SALT_KEY : String := "npd_hidden_notes_salt"
def HIDDEN_NOTES_USE_BIOMETRIC_KEY : String := "npd_hidden_notes_use_biometric"

/-- Platform model of the Web Crypto PBKDF2-SHA256 derivation used by
`hashPasswordAsync` (spec §4.1 `derive`): an injective salted pairing of
password and salt.  The development relies only on the derived value being
a function of `(password, salt)`, injective in the password for a fixed
salt, and never the empty string. -/
def hashPasswordAsync (password salt : String) : String :=
  "pbkdf2:" ++ salt ++ ":" ++ password

/-- `hashPasswordSecure`: derive with the given salt when one is supplied
(`salt || generateSalt()` — empty counts as absent), otherwise with the
fresh platform salt. -/
def hashPasswordSecure (freshSalt : String) (password : String)
    (salt : Option String) : String × String :=
  let useSalt := if jsTruthy salt then salt.getD "" else freshSalt
  (hashPasswordAsync password useSalt, useSalt)

/-- Wrap to a signed 32-bit value, as JavaScript bitwise operators do. -/
def toInt32 (n : Int) : Int := (n + 2 ^ 31) % 2 ^ 32 - 2 ^ 31

/-- The loop of the legacy `hashPassword`:
`hash = ((hash << 5) - hash) + charCode; hash = hash & hash`. -/
def legacyHashLoop : List Char → Int → Int
  | [], h => h
  | c :: cs, h => legacyHashLoop cs (toInt32 (toInt32 (h * 32) - h + c.toNat))

/-- Big-endian base-36 character rendering of a natural number (digits
`0-9a-z`), as `Number.prototype.toString(36)` renders magnitudes. -/
def natChars36 (n : Nat) : List Char :=
  if n = 0 then ['0']
  else
    (((natDigitsAux36 n n).map fun d =>
      if d < 10 then Char.ofNat (48 + d) else Char.ofNat (87 + d)).reverse)
where
  natDigitsAux36 : Nat → Nat → List Nat
    | 0, _ => []
    | _ + 1, 0 => []
    | fuel + 1, n + 1 => ((n + 1) % 36) :: natDigitsAux36 fuel ((n + 1) / 36)

/-- `Number.prototype.toString(36)` on an integer: sign then magnitude. -/
def toString36 (n : Int) : String :=
  if n < 0 then ⟨'-' :: natChars36 n.natAbs⟩ else ⟨natChars36 n.natAbs⟩

/-- The legacy synchronous `hashPassword` (additive rolling hash wrapped to
int32, rendered base-36, with the password length appended base-36).  The
source also reads the stored salt only to emit a compatibility warning,
which does not affect the result. -/
def hashPassword (password : String) : String :=
  toString36 (legacyHashLoop password.data 0) ++ toString36 password.data.length

/-- `verifyPassword`: with a (truthy) salt re-derive with the salted
function and compare; otherwise compare against the legacy hash. -/
def verifyPassword (password hashedPassword : String) (salt : Option String) : Bool :=
  if jsTruthy salt then
    (hashPasswordSecure "" password salt).1 == hashedPassword
  else
    hashPassword password == hashedPassword

/-- `storedSalt || undefined`: an absent or empty stored salt is passed on
as no salt. -/
def jsOrUndef (o : Option String) : Option String :=
  if jsTruthy o then o else none

/-- Protection state of a scope as the source reads it
(`getHiddenNotesSettings` / the per-note record). -/
structure NoteProtection where
  hasPassword : Bool
  useBiometric : Bool
  deriving DecidableEq, Repr

/-- `getHiddenNotesSettings`: `hasPassword` is the truthiness of the stored
hash, `useBiometric` is whether the stored flag is the string `true`. -/
def getHiddenNotesSettings (st : LS) : NoteProtection :=
  { hasPassword := jsTruthy (st HIDDEN_NOTES_PASSWORD_KEY)
    useBiometric := st HIDDEN_NOTES_USE_BIOMETRIC_KEY == some "true" }

/-- `setHiddenNotesPassword`: store a freshly salted hash and its salt. -/
def setHiddenNotesPassword (freshSalt : String) (password : String) (st : LS) : LS :=
  let hs := hashPasswordSecure freshSalt password none
  lsSet (lsSet st HIDDEN_NOTES_PASSWORD_KEY hs.1) HIDDEN_NOTES_SALT_KEY hs.2

/-- `verifyHiddenNotesPassword`: false without a (truthy) stored hash, else
verify against the stored hash and (possibly absent) stored salt. -/
def verifyHiddenNotesPassword (st : LS) (password : String) : Bool :=
  let storedHash := st HIDDEN_NOTES_PASSWORD_KEY
  if !jsTruthy storedHash then false
  else verifyPassword password (storedHash.getD "") (jsOrUndef (st HIDDEN_NOTES_SALT_KEY))

/-- `setHiddenNotesBiometric`. -/
def setHiddenNotesBiometric (enabled : Bool) (st : LS) : LS :=
  lsSet st HIDDEN_NOTES_USE_BIOMETRIC_KEY (if enabled then "true" else "false")

/-- `clearHiddenNotesProtection`: remove hash, salt and biometric flag. -/
def clearHiddenNotesProtection (st : LS) : LS :=
  lsRemove (lsRemove (lsRemove st HIDDEN_NOTES_PASSWORD_KEY) HIDDEN_NOTES_SALT_KEY)
    HIDDEN_NOTES_USE_BIOMETRIC_KEY

/-- `authenticateForHiddenNotes`: trivially true for an unprotected scope;
else the biometric gate first when enabled, then the password fallback when
one was (truthily) supplied and a password is configured. -/
def authenticateForHiddenNotes (bio : Bool) (st : LS) (password : Option String) : Bool :=
  let settings := getHiddenNotesSettings st
  if !settings.hasPassword && !settings.useBiometric then true
  else if settings.useBiometric && bio then true
  else if jsTruthy password && settings.hasPassword then
    verifyHiddenNotesPassword st (password.getD "")
  else false

def getNoteProtectionKey (noteId : String) : String := "npd_note_protection_" ++ noteId
def getNotePasswordKey (noteId : String) : String := "npd_note_password_" ++ noteId
def getNoteSaltKey (noteId : String) : String := "npd_note_salt_" ++ noteId

/-- `JSON.stringify` of a per-note protection record, in the field order of
the interface. -/
def stringifyProtection (p : NoteProtection) : String :=
  "\x7b\"hasPassword\":" ++ (if p.hasPassword then "true" else "false")
    ++ ",\"useBiometric\":" ++ (if p.useBiometric then "true" else "false") ++ "\x7d"

/-- `JSON.parse` of a stored protection record, modelled on the canonical
encodings `setNoteProtection` writes; any other string behaves as the parse
failure the source catches. -/
def parseProtection (s : String) : Option NoteProtection :=
  if s = stringifyProtection ⟨false, false⟩ then some ⟨false, false⟩
  else if s = stringifyProtection ⟨false, true⟩ then some ⟨false, true⟩
  else if s = stringifyProtection ⟨true, false⟩ then some ⟨true, false⟩
  else if s = stringifyProtection ⟨true, true⟩ then some ⟨true, true⟩
  else none

/-- `getNoteProtection`: the parsed stored record, defaulting to the
unprotected record when absent or unparseable. -/
def getNoteProtection (st : LS) (noteId : String) : NoteProtection :=
  match st (getNoteProtectionKey noteId) with
  | none => ⟨false, false⟩
  | some data => (parseProtection data).getD ⟨false, false⟩

/-- `setNoteProtection`: store the record; with a (truthy) password, store
a freshly salted hash and salt; otherwise, when the record disables the
password, remove any stored hash and salt. -/
def setNoteProtection (freshSalt : String) (noteId : String)
    (protection : NoteProtection) (password : Option String) (st : LS) : LS :=
  let st1 := lsSet st (getNoteProtectionKey noteId) (stringifyProtection protection)
  if jsTruthy password then
    let hs := hashPasswordSecure freshSalt (password.getD "") none
    lsSet (lsSet st1 (getNotePasswordKey noteId) hs.1) (getNoteSaltKey noteId) hs.2
  else if !protection.hasPassword then
    lsRemove (lsRemove st1 (getNotePasswordKey noteId)) (getNoteSaltKey noteId)
  else st1

/-- `verifyNotePassword`: false without a (truthy) stored hash, else verify
against the stored hash and (possibly absent) stored salt. -/
def verifyNotePassword (st : LS) (noteId : String) (password : String) : Bool :=
  let storedHash := st (getNotePasswordKey noteId)
  if !jsTruthy storedHash then false
  else verifyPassword password (storedHash.getD "") (jsOrUndef (st (getNoteSaltKey noteId)))

/-- `authenticateForNote`: as for hidden notes, but driven by the stored
per-note protection record. -/
def authenticateForNote (bio : Bool) (st : LS) (noteId : String)
    (password : Option String) : Bool :=
  let protection := getNoteProtection st noteId
  if !protection.hasPassword && !protection.useBiometric then true
  else if protection.useBiometric && bio then true
  else if jsTruthy password && protection.hasPassword then
    verifyNotePassword st noteId (password.getD "")
  else false

/-- `removeNoteProtection`: remove record, hash and salt. -/
def removeNoteProtection (st : LS) (noteId : String) : LS :=
  lsRemove (lsRemove (lsRemove st (getNoteProtectionKey noteId))
    (getNotePasswordKey noteId)) (getNoteSaltKey noteId)

/-! ## Concrete sample data for witnesses and counterexamples -/

/-- A sample voice recording. -/
def sampleVR : VoiceRecording := { audioUrl := "blob:rec1", timestamp := 5 }

/-- A sample note with id `"a"`, exercising the optional fields (including
an epoch-zero archive instant) and a nested recording. -/
def noteA : Note :=
  { id := "a", title := "t1", content := "c1", type := "sticky", color := some "#fff"
    folderId := none, createdAt := 0, updatedAt := 1, archivedAt := some 0
    deletedAt := none, reminderTime := some 2, voiceRecordings := [sampleVR] }

/-- A sample note with id `"b"` and no optional data. -/
def noteB : Note :=
  { id := "b", title := "t2", content := "c2", type := "lined", color := none
    folderId := some "f1", createdAt := 3, updatedAt := 4, archivedAt := none
    deletedAt := none, reminderTime := none, voiceRecordings := [] }

/-- An available, empty primary backend. -/
def sampleDB : Storage :=
  { idbAvailable := true, idbNotes := [], localNotes := none, migratedFlag := none }

/-- A legacy flat-list record. -/
def legacyA : LegacyStoredNote :=
  { id := "L1", title := "lt", content := "lc", type := "regular", color := none
    folderId := none, createdAt := "7", updatedAt := "8"
    voiceRecordings := some [{ audioUrl := "blob:old", timestamp := "9" }] }

/-- An unavailable primary backend with legacy data present. -/
def sampleOffDB : Storage :=
  { idbAvailable := false, idbNotes := [], localNotes := some [legacyA]
    migratedFlag := none }

/-! # Lemmas and theorems -/

theorem str_ext {s t : String} (h : s.data = t.data) : s = t :=
  congrArg String.mk h

theorem natDigitsAux_val : ∀ fuel n, n ≤ fuel → digitsVal (natDigitsAux fuel n) = n := by
  intro fuel
  induction fuel with
  | zero => intro n h; interval_cases n; rfl
  | succ f ih =>
    intro n h
    match n with
    | 0 => rfl
    | m + 1 =>
      have hdiv : (m + 1) / 10 ≤ f := by omega
      simp only [natDigitsAux, digitsVal, ih _ hdiv]
      omega

theorem natDigitsAux_lt : ∀ fuel n d, d ∈ natDigitsAux fuel n → d < 10 := by
  intro fuel
  induction fuel with
  | zero => intro n d h; simp [natDigitsAux] at h
  | succ f ih =>
    intro n d h
    match n with
    | 0 => simp [natDigitsAux] at h
    | m + 1 =>
      simp only [natDigitsAux, List.mem_cons] at h
      rcases h with h | h
      · omega
      · exact ih _ _ h

theorem charVal_digitChar : ∀ d, d < 10 → charVal (digitChar d) = d := by decide

theorem digit_bounds : ∀ d, d < 10 → 48 ≤ (digitChar d).toNat ∧ (digitChar d).toNat ≤ 57 := by
  decide

theorem charsNat_natChars (n : Nat) : charsNat (natChars n) = n := by
  unfold natChars
  by_cases h : n = 0
  · subst h; decide
  · simp only [h, if_false, charsNat, List.reverse_reverse, List.map_map]
    have hcongr : ∀ d ∈ natDigits n, (charVal ∘ digitChar) d = d := fun d hd =>
      charVal_digitChar d (natDigitsAux_lt n n d hd)
    rw [List.map_congr_left hcongr]
    simpa [natDigits] using natDigitsAux_val n n le_rfl

theorem natChars_ne_nil (n : Nat) : natChars n ≠ [] := by
  unfold natChars
  by_cases h : n = 0
  · simp [h]
  · simp only [h, if_false]
    match hn : n with
    | 0 => exact absurd rfl h
    | m + 1 =>
      simp only [natDigits, natDigitsAux]
      simp

theorem natChars_digits (n : Nat) : ∀ c ∈ natChars n, 48 ≤ c.toNat ∧ c.toNat ≤ 57 := by
  intro c hc
  unfold natChars at hc
  by_cases h : n = 0
  · simp [h] at hc; subst hc; decide
  · simp only [h, if_false, List.mem_reverse, List.mem_map] at hc
    obtain ⟨d, hd, rfl⟩ := hc
    exact digit_bounds d (natDigitsAux_lt n n d hd)

theorem natChars_head_ne_dash (n : Nat) : (natChars n).head? ≠ some '-' := by
  match hl : natChars n with
  | [] => simp
  | c :: cs =>
    have hc := natChars_digits n c (by rw [hl]; exact List.mem_cons_self c cs)
    simp only [List.head?]
    intro h
    have : c = '-' := by injection h
    subst this
    revert hc; decide

theorem dateFromISO_toISOString (ms : Int) : dateFromISO (toISOString ms) = ms := by
  unfold toISOString dateFromISO
  by_cases h : ms < 0
  · simp only [h, if_true]
    have hc : ('-' :: natChars ms.natAbs).head? = some '-' := rfl
    rw [if_pos hc]
    simp only [List.drop_succ_cons, List.drop_zero]
    rw [charsNat_natChars]
    omega
  · simp only [h, if_false]
    rw [if_neg (natChars_head_ne_dash ms.natAbs), charsNat_natChars]
    omega

theorem toISOString_ne_empty (ms : Int) : toISOString ms ≠ "" := by
  unfold toISOString
  intro h
  by_cases hm : ms < 0
  · rw [if_pos hm] at h
    have := congrArg String.data h
    simp at this
  · rw [if_neg hm] at h
    have := congrArg String.data h
    have hd : (String.mk (natChars ms.natAbs)).data = natChars ms.natAbs := rfl
    rw [hd] at this
    exact natChars_ne_nil ms.natAbs (by simpa using this)

theorem jsTruthy_toISOString (ms : Int) : jsTruthy (some (toISOString ms)) = true := by
  simp [jsTruthy, toISOString_ne_empty ms]

theorem reviveOpt_serialize (o : Option Int) : reviveOpt (o.map toISOString) = o := by
  cases o with
  | none => rfl
  | some d => simp [reviveOpt, jsTruthy_toISOString, dateFromISO_toISOString]

theorem map_revive_serialize_vr (l : List VoiceRecording) :
    l.map ((fun r : StoredVoiceRecording =>
        ({ audioUrl := r.audioUrl, timestamp := dateFromISO r.timestamp } : VoiceRecording)) ∘
      (fun r : VoiceRecording =>
        ({ audioUrl := r.audioUrl, timestamp := toISOString r.timestamp } :
          StoredVoiceRecording))) = l := by
  induction l with
  | nil => rfl
  | cons r rest ih => simp only [List.map_cons, ih, Function.comp, dateFromISO_toISOString]

theorem reviveNote_serializeNote (n : Note) : reviveNote (serializeNote n) = n := by
  cases n with
  | mk id title content type color folderId createdAt updatedAt archivedAt deletedAt
      reminderTime voiceRecordings =>
    simp only [serializeNote, reviveNote, dateFromISO_toISOString, reviveOpt_serialize,
      List.map_map, map_revive_serialize_vr]

theorem strLtb_irrefl : ∀ l, strLtb l l = false := by
  intro l
  induction l with
  | nil => rfl
  | cons a as ih => simp [strLtb, ih]

theorem idLt_irrefl (s : String) : idLt s s = false := strLtb_irrefl s.data

theorem strLtb_asymm : ∀ as bs, strLtb as bs = true → strLtb bs as = false := by
  intro as
  induction as with
  | nil =>
    intro bs h
    cases bs with
    | nil => exact absurd h (by simp [strLtb])
    | cons b bs => rfl
  | cons a as ih =>
    intro bs h
    cases bs with
    | nil => exact absurd h (by simp [strLtb])
    | cons b bs =>
      simp only [strLtb] at h ⊢
      rcases Nat.lt_trichotomy a.toNat b.toNat with hlt | heq | hgt
      · simp [hlt, Nat.lt_asymm hlt]
      · simp only [heq, lt_irrefl, if_false] at h ⊢
        exact ih bs h
      · simp [hgt, Nat.lt_asymm hgt] at h

theorem idLt_asymm (a b : String) (h : idLt a b = true) : idLt b a = false :=
  strLtb_asymm a.data b.data h

theorem putNote_append (acc : List StoredNote) (n : StoredNote)
    (h : ∀ m ∈ acc, idLt m.id n.id = true) : putNote acc n = acc ++ [n] := by
  induction acc with
  | nil => rfl
  | cons m rest ih =>
    have hm : idLt m.id n.id = true := h m (List.mem_cons_self m rest)
    have hne : ¬(n.id = m.id) := by
      intro he
      rw [he] at hm
      rw [idLt_irrefl] at hm
      exact Bool.false_ne_true hm
    have hnlt : idLt n.id m.id = false := idLt_asymm _ _ hm
    simp only [putNote, hnlt, Bool.false_eq_true, if_false, hne,
      ih fun m' hm' => h m' (List.mem_cons_of_mem m hm'), List.cons_append]

theorem foldl_putNote_sorted : ∀ (l acc : List StoredNote),
    (acc ++ l).Pairwise (fun a b => idLt a.id b.id = true) →
    l.foldl putNote acc = acc ++ l := by
  intro l
  induction l with
  | nil => intro acc _; simp
  | cons n l ih =>
    intro acc hp
    have h3 := (List.pairwise_append.mp hp).2.2
    have hput : putNote acc n = acc ++ [n] :=
      putNote_append acc n fun m hm => h3 m hm n (List.mem_cons_self n l)
    have hp' : ((acc ++ [n]) ++ l).Pairwise (fun a b => idLt a.id b.id = true) := by
      simpa [List.append_assoc] using hp
    calc (n :: l).foldl putNote acc = l.foldl putNote (putNote acc n) := rfl
      _ = l.foldl putNote (acc ++ [n]) := by rw [hput]
      _ = (acc ++ [n]) ++ l := ih (acc ++ [n]) hp'
      _ = acc ++ n :: l := by simp

theorem map_revive_map_serialize (notes : List Note) :
    (notes.map serializeNote).map reviveNote = notes := by
  rw [List.map_map]
  calc notes.map (reviveNote ∘ serializeNote)
      = notes.map id := List.map_congr_left fun n _ => reviveNote_serializeNote n
    _ = notes := List.map_id notes

/-- Claim C1 (amended): with the primary backend available on both calls
and the notes' ids pairwise distinct and in ascending backend key order,
`saveNotesToDB` then `loadNotesFromDB` reproduces the input exactly —
every field deep-equal, each timestamp (including the nested
voice-recording timestamps) serialized on save and revived to the
identical instant on load.  (As stated over *every* list the claim fails:
the backend stores records by id, so `getAll` returns them in ascending id
order and a later duplicate id overwrites an earlier one — see the
counterexample.) -/
theorem save_load_roundtrip (st : Storage) (notes : List Note)
    (hav : st.idbAvailable = true)
    (hsorted : notes.Pairwise (fun a b => idLt a.id b.id = true)) :
    loadNotesFromDB (saveNotesToDB st notes) = notes := by
  unfold saveNotesToDB loadNotesFromDB
  simp only [hav, if_true]
  have hsorted' : (notes.map serializeNote).Pairwise (fun a b => idLt a.id b.id = true) :=
    List.pairwise_map.mpr hsorted
  rw [foldl_putNote_sorted (notes.map serializeNote) [] (by simpa using hsorted')]
  simpa using map_revive_map_serialize notes

/-- Claim C1 counterexample: with ids out of backend key order the claim as
stated fails — saving `[noteB, noteA]` (ids `"b"`, `"a"`) and loading
returns the records in ascending id order, not the input order. -/
theorem save_load_roundtrip_counterexample :
    loadNotesFromDB (saveNotesToDB sampleDB [noteB, noteA]) ≠ [noteB, noteA] := by
  decide

/-- Claim C1 witness: the round trip at a concrete sorted two-note list. -/
theorem save_load_roundtrip_witness :
    sampleDB.idbAvailable = true
    ∧ ([noteA, noteB].Pairwise fun a b => idLt a.id b.id = true)
    ∧ loadNotesFromDB (saveNotesToDB sampleDB [noteA, noteB]) = [noteA, noteB] :=
  ⟨by decide, by decide, save_load_roundtrip sampleDB [noteA, noteB] (by decide) (by decide)⟩

/-- Claim C4: when the primary backend fails to open, `loadNotesFromDB`
returns the legacy flat list read from the key-value store (empty when no
legacy entry exists), while `saveNotesToDB` writes nothing anywhere —
neither backend changes — and resolves without throwing (totality of the
embedded function). -/
theorem load_save_fallback_asymmetry (st : Storage) (notes : List Note)
    (h : st.idbAvailable = false) :
    loadNotesFromDB st = loadNotesFromLocalStorage st
    ∧ saveNotesToDB st notes = st
    ∧ (st.localNotes = none → loadNotesFromDB st = []) := by
  refine ⟨by simp [loadNotesFromDB, h], by simp [saveNotesToDB, h], fun hn => ?_⟩
  simp [loadNotesFromDB, h, loadNotesFromLocalStorage, hn]

/-- Claim C4 witness: the fallback asymmetry at a concrete unavailable
backend with legacy data present. -/
theorem load_save_fallback_asymmetry_witness :
    sampleOffDB.idbAvailable = false
    ∧ (loadNotesFromDB sampleOffDB = loadNotesFromLocalStorage sampleOffDB
      ∧ saveNotesToDB sampleOffDB [noteA] = sampleOffDB
      ∧ (sampleOffDB.localNotes = none → loadNotesFromDB sampleOffDB = [])) :=
  ⟨by decide, load_save_fallback_asymmetry sampleOffDB [noteA] (by decide)⟩

theorem saveNotesToDB_idbAvailable (st : Storage) (notes : List Note) :
    (saveNotesToDB st notes).idbAvailable = st.idbAvailable := by
  unfold saveNotesToDB; split <;> rfl

theorem saveNotesToDB_localNotes (st : Storage) (notes : List Note) :
    (saveNotesToDB st notes).localNotes = st.localNotes := by
  unfold saveNotesToDB; split <;> rfl

theorem saveNotesToDB_migratedFlag (st : Storage) (notes : List Note) :
    (saveNotesToDB st notes).migratedFlag = st.migratedFlag := by
  unfold saveNotesToDB; split <;> rfl

/-- Claim C5 (amended): a second `migrateNotesToIndexedDB` performs no
writes to the primary backend and agrees with the first run's final state
on every component, except in one corner: when the migration flag was
unset and the legacy entry was present but held an *empty* list, the first
run sets the flag without purging the entry and the second run then
removes it.  (As stated over every starting state the claim fails on
exactly that corner — see the counterexample.) -/
theorem migrate_idempotent_amended (st : Storage) :
    (migrateNotesToIndexedDB (migrateNotesToIndexedDB st).1).1.idbAvailable
      = (migrateNotesToIndexedDB st).1.idbAvailable
    ∧ (migrateNotesToIndexedDB (migrateNotesToIndexedDB st).1).1.idbNotes
      = (migrateNotesToIndexedDB st).1.idbNotes
    ∧ (migrateNotesToIndexedDB (migrateNotesToIndexedDB st).1).1.migratedFlag
      = (migrateNotesToIndexedDB st).1.migratedFlag
    ∧ ((migrateNotesToIndexedDB (migrateNotesToIndexedDB st).1).1.localNotes
        = (migrateNotesToIndexedDB st).1.localNotes
      ∨ (st.migratedFlag ≠ some "true" ∧ st.localNotes = some []
          ∧ (migrateNotesToIndexedDB st).1.localNotes = some []
          ∧ (migrateNotesToIndexedDB (migrateNotesToIndexedDB st).1).1.localNotes = none)) := by
  by_cases h1 : st.migratedFlag = some "true"
  · simp [migrateNotesToIndexedDB, h1]
  · rcases hl : st.localNotes with _ | l
    · simp [migrateNotesToIndexedDB, h1, loadNotesFromLocalStorage, hl]
    · rcases l with _ | ⟨n, l⟩
      · simp [migrateNotesToIndexedDB, h1, loadNotesFromLocalStorage, hl]
      · simp [migrateNotesToIndexedDB, h1, loadNotesFromLocalStorage, hl,
          saveNotesToDB_idbAvailable, saveNotesToDB_localNotes, saveNotesToDB_migratedFlag]

/-- Claim C5 counterexample: from the state with the migration flag unset
and a present-but-empty legacy list, running the migration twice does not
yield the final durable state of running it once — the second run removes
the leftover empty legacy entry. -/
theorem migrate_idempotent_counterexample :
    (migrateNotesToIndexedDB (migrateNotesToIndexedDB
        { idbAvailable := true, idbNotes := [], localNotes := some []
          migratedFlag := none }).1).1
      ≠ (migrateNotesToIndexedDB
        { idbAvailable := true, idbNotes := [], localNotes := some []
          migratedFlag := none }).1 := by
  decide

theorem schedRun_calls (ps : List (List Note)) (pN : List Note) : ∀ w0 : SchedWorld,
    schedRun w0 ((ps ++ [pN]).map SchedEvent.call) = { w0 with pending := some pN } := by
  induction ps with
  | nil => intro w0; rfl
  | cons p ps ih => intro w0; exact ih { w0 with pending := some p }

/-- Claim C8: for any burst of calls to `debouncedSaveNotes` with every gap
shorter than the quiet interval (modelled as a timeline with no timer
expiry between the calls) followed by the timer expiry, exactly one
durable write fires, its payload is the last call's notes argument, and no
timer remains pending; moreover each call replaces the single pending
slot with its own payload without firing a write (`clearTimeout` before
`setTimeout`; the module's one `saveTimeout` handle means at most one
scheduled write is ever pending, which the `Option`-typed slot captures).
-/
theorem debounce_coalesces (w0 : SchedWorld) (ps : List (List Note)) (pN : List Note) :
    (schedRun w0 (((ps ++ [pN]).map SchedEvent.call) ++ [SchedEvent.tick])).writeCount
      = w0.writeCount + 1
    ∧ (schedRun w0 (((ps ++ [pN]).map SchedEvent.call) ++ [SchedEvent.tick])).store
      = saveNotesToDB w0.store pN
    ∧ (schedRun w0 (((ps ++ [pN]).map SchedEvent.call) ++ [SchedEvent.tick])).pending = none
    ∧ ∀ (w : SchedWorld) (notes : List Note),
        (schedStep w (SchedEvent.call notes)).pending = some notes
        ∧ (schedStep w (SchedEvent.call notes)).writeCount = w.writeCount := by
  have hrun : schedRun w0 (((ps ++ [pN]).map SchedEvent.call) ++ [SchedEvent.tick])
      = schedStep (schedRun w0 ((ps ++ [pN]).map SchedEvent.call)) SchedEvent.tick := by
    unfold schedRun
    rw [List.foldl_append]
    rfl
  rw [hrun, schedRun_calls ps pN w0]
  exact ⟨rfl, rfl, rfl, fun w notes => ⟨rfl, rfl⟩⟩

theorem take_min_append_drop {α : Type} (k : Nat) (l : List α) :
    l.take (min k l.length) ++ l.drop k = l := by
  rcases le_total k l.length with h | h
  · rw [min_eq_left h, List.take_append_drop]
  · rw [min_eq_right h, List.take_length, List.drop_eq_nil_of_le h, List.append_nil]

theorem jsSlice_data (c : String) (start k : Int) (h0 : 0 ≤ start)
    (hlt : start < (c.data.length : Int)) (hk : 0 < k) :
    (jsSlice c start (start + k)).data
      = (c.data.drop start.toNat).take (min k.toNat (c.data.length - start.toNat)) := by
  unfold jsSlice
  have ha : ¬ start < 0 := by omega
  have hb : ¬ start + k < 0 := by omega
  simp only [ha, hb, if_false]
  have h1 : (min start (c.data.length : Int)).toNat = start.toNat := by omega
  have h2 : (min (start + k) (c.data.length : Int)).toNat
      = min (start.toNat + k.toNat) c.data.length := by omega
  rw [h1, h2, List.drop_take]
  congr 1
  omega

theorem splitLoop_spec (c : String) (k : Int) (hk : 0 < k) : ∀ (fuel : Nat) (start : Int),
    0 ≤ start → (c.data.length : Int) - start ≤ fuel →
    ∃ l, splitLoop c k fuel start = some l
      ∧ (concatChunks l).data = c.data.drop start.toNat
      ∧ goodChunks k.toNat l
      ∧ (l = [] ↔ (c.data.length : Int) ≤ start) := by
  intro fuel
  induction fuel with
  | zero =>
    intro start h0 hf
    have hge : (c.data.length : Int) ≤ start := by omega
    refine ⟨[], ?_, ?_, trivial, iff_of_true rfl hge⟩
    · unfold splitLoop
      rw [if_neg (by omega)]
    · show ([] : List Char) = _
      symm
      apply List.drop_eq_nil_of_le
      omega
  | succ fuel ih =>
    intro start h0 hf
    by_cases hlt : start < (c.data.length : Int)
    · obtain ⟨rest, hrest, hcat, hgood, hiff⟩ := ih (start + k) (by omega) (by omega)
      have hput : splitLoop c k (fuel + 1) start
          = some (jsSlice c start (start + k) :: rest) := by
        unfold splitLoop
        rw [if_pos hlt, hrest]
        rfl
      have hdata := jsSlice_data c start k h0 hlt hk
      have hlen : (jsSlice c start (start + k)).data.length
          = min k.toNat (c.data.length - start.toNat) := by
        rw [hdata, List.length_take, List.length_drop]
        omega
      have htn : (start + k).toNat = start.toNat + k.toNat := by omega
      refine ⟨jsSlice c start (start + k) :: rest, hput, ?_, ?_, ?_⟩
      · have hcons : (concatChunks (jsSlice c start (start + k) :: rest)).data
            = (jsSlice c start (start + k)).data ++ (concatChunks rest).data := by
          show ((jsSlice c start (start + k)) ++ concatChunks rest).data = _
          exact String.data_append _ _
        rw [hcons, hcat, htn, hdata]
        have hdd : c.data.drop (start.toNat + k.toNat)
            = (c.data.drop start.toNat).drop k.toNat := by
          rw [List.drop_drop]
        rw [hdd]
        have hL : (c.data.drop start.toNat).length = c.data.length - start.toNat :=
          List.length_drop _ _
        rw [← hL]
        exact take_min_append_drop k.toNat (c.data.drop start.toNat)
      · rcases hr : rest with _ | ⟨r, rs⟩
        · subst hr
          have hend : (c.data.length : Int) ≤ start + k := hiff.mp rfl
          show goodChunks k.toNat [jsSlice c start (start + k)]
          refine ⟨?_, ?_⟩
          · rw [hlen]; omega
          · rw [hlen]; omega
        · subst hr
          have hne : ¬((c.data.length : Int) ≤ start + k) := by
            intro hle
            exact absurd (hiff.mpr hle) (List.cons_ne_nil r rs)
          show goodChunks k.toNat (jsSlice c start (start + k) :: r :: rs)
          refine ⟨?_, hgood⟩
          rw [hlen]; omega
      · exact iff_of_false (List.cons_ne_nil _ _) (by omega)
    · refine ⟨[], ?_, ?_, trivial, iff_of_true rfl (by omega)⟩
      · unfold splitLoop
        rw [if_neg hlt]
      · show ([] : List Char) = _
        symm
        apply List.drop_eq_nil_of_le
        omega

/-- Claim C9: for every content string and chunk size `k > 0`,
`splitLargeContent` terminates with a chunk list whose in-order
concatenation reproduces the content exactly, every chunk except possibly
the last having length exactly `k` and the last length between 1 and
`k`. -/
theorem chunk_roundtrip (c : String) (k : Int) (hk : 0 < k) :
    ∃ l, splitLargeContent c k = some l ∧ concatChunks l = c ∧ goodChunks k.toNat l := by
  obtain ⟨l, hsome, hcat, hgood, -⟩ :=
    splitLoop_spec c k hk (c.data.length + 1) 0 le_rfl (by omega)
  exact ⟨l, hsome, str_ext (by simpa using hcat), hgood⟩

/-- Claim C9 witness: chunking `"abcde"` at size 3. -/
theorem chunk_roundtrip_witness :
    (0 : Int) < 3
    ∧ ∃ l, splitLargeContent "abcde" 3 = some l ∧ concatChunks l = "abcde"
        ∧ goodChunks (3 : Int).toNat l :=
  ⟨by decide, chunk_roundtrip "abcde" 3 (by decide)⟩

/-- Claim C10: the `while` loop of `splitLargeContent` terminates exactly
under the precondition `maxChunkSize > 0` (the index advances by
`maxChunkSize` each iteration, so content-length-plus-one fuel suffices);
for empty content it exits immediately with the empty list for any chunk
size; and for a non-positive chunk size with nonempty content the loop
makes no progress — no amount of fuel reaches the exit. -/
theorem chunk_termination (c : String) (k : Int) :
    (0 < k → (splitLargeContent c k).isSome = true)
    ∧ (c = "" → ∀ fuel, splitLoop c k fuel 0 = some [])
    ∧ (k ≤ 0 → c ≠ "" → ∀ fuel, splitLoop c k fuel 0 = none) := by
  refine ⟨?_, ?_, ?_⟩
  · intro hk
    obtain ⟨l, hsome, -, -, -⟩ := splitLoop_spec c k hk (c.data.length + 1) 0 le_rfl (by omega)
    unfold splitLargeContent
    rw [hsome]
    rfl
  · intro hc fuel
    subst hc
    have h0 : ("" : String).data = [] := rfl
    cases fuel <;> simp [splitLoop, h0]
  · intro hk hc
    have hN : 0 < c.data.length :=
      List.length_pos.mpr fun hd => hc (str_ext (by rw [hd]))
    have main : ∀ fuel (start : Int), start ≤ 0 → splitLoop c k fuel start = none := by
      intro fuel
      induction fuel with
      | zero =>
        intro start hs
        unfold splitLoop
        rw [if_pos (by omega)]
      | succ fuel ih =>
        intro start hs
        unfold splitLoop
        rw [if_pos (by omega), ih (start + k) (by omega)]
        rfl
    exact fun fuel => main fuel 0 le_rfl

theorem lsSet_self (st : LS) (k v : String) : lsSet st k v k = some v := if_pos rfl

theorem lsSet_ne (st : LS) (k v k' : String) (h : k' ≠ k) : lsSet st k v k' = st k' :=
  if_neg h

theorem lsRemove_self (st : LS) (k : String) : lsRemove st k k = none := if_pos rfl

theorem lsRemove_ne (st : LS) (k k' : String) (h : k' ≠ k) : lsRemove st k k' = st k' :=
  if_neg h

theorem jsTruthy_some {s : String} (h : s ≠ "") : jsTruthy (some s) = true := by
  simp [jsTruthy, h]

theorem hashPasswordAsync_ne_empty (p s : String) : hashPasswordAsync p s ≠ "" := by
  intro h
  have hd := congrArg String.data h
  have he : ("" : String).data = [] := rfl
  simp only [hashPasswordAsync, String.data_append, he, List.append_eq_nil] at hd
  exact List.cons_ne_nil _ _ hd.1.1.1

theorem hashPasswordAsync_inj (s x y : String)
    (h : hashPasswordAsync x s = hashPasswordAsync y s) : x = y := by
  have hd := congrArg String.data h
  simp only [hashPasswordAsync, String.data_append, List.append_assoc] at hd
  exact str_ext (List.append_cancel_left (List.append_cancel_left
    (List.append_cancel_left hd)))

theorem append_ne_of_length_ne (a b c : String) (h : a.data.length ≠ b.data.length) :
    a ++ c ≠ b ++ c := by
  intro he
  have hl := congrArg (fun s : String => s.data.length) he
  simp only [String.data_append, List.length_append] at hl
  omega

theorem noteKeys_prot_pw (noteId : String) :
    getNoteProtectionKey noteId ≠ getNotePasswordKey noteId :=
  append_ne_of_length_ne _ _ noteId (by decide)

theorem noteKeys_prot_salt (noteId : String) :
    getNoteProtectionKey noteId ≠ getNoteSaltKey noteId :=
  append_ne_of_length_ne _ _ noteId (by decide)

theorem noteKeys_pw_salt (noteId : String) :
    getNotePasswordKey noteId ≠ getNoteSaltKey noteId :=
  append_ne_of_length_ne _ _ noteId (by decide)

theorem parse_stringify (p : NoteProtection) :
    parseProtection (stringifyProtection p) = some p := by
  rcases p with ⟨hp, hb⟩
  cases hp <;> cases hb <;> decide

theorem auth_hidden_after_clear (st : LS) (bio : Bool) (p : Option String) :
    authenticateForHiddenNotes bio (clearHiddenNotesProtection st) p = true := by
  simp [authenticateForHiddenNotes, getHiddenNotesSettings, clearHiddenNotesProtection,
    lsRemove, jsTruthy, HIDDEN_NOTES_PASSWORD_KEY, HIDDEN_NOTES_SALT_KEY,
    HIDDEN_NOTES_USE_BIOMETRIC_KEY]

theorem hidden_set_pw (st : LS) (x freshSalt : String) :
    (setHiddenNotesPassword freshSalt x st) HIDDEN_NOTES_PASSWORD_KEY
      = some (hashPasswordAsync x freshSalt) := by
  simp [setHiddenNotesPassword, hashPasswordSecure, jsTruthy, lsSet,
    HIDDEN_NOTES_PASSWORD_KEY, HIDDEN_NOTES_SALT_KEY]

theorem hidden_set_salt (st : LS) (x freshSalt : String) :
    (setHiddenNotesPassword freshSalt x st) HIDDEN_NOTES_SALT_KEY = some freshSalt := by
  simp [setHiddenNotesPassword, hashPasswordSecure, jsTruthy, lsSet,
    HIDDEN_NOTES_SALT_KEY]

theorem hidden_set_bio (st : LS) (x freshSalt : String) :
    (setHiddenNotesPassword freshSalt x st) HIDDEN_NOTES_USE_BIOMETRIC_KEY
      = st HIDDEN_NOTES_USE_BIOMETRIC_KEY := by
  simp [setHiddenNotesPassword, lsSet, HIDDEN_NOTES_PASSWORD_KEY,
    HIDDEN_NOTES_SALT_KEY, HIDDEN_NOTES_USE_BIOMETRIC_KEY]

theorem auth_hidden_after_set_correct (st : LS) (x freshSalt : String)
    (hx : x ≠ "") (hsalt : freshSalt ≠ "")
    (hbio : ¬(st HIDDEN_NOTES_USE_BIOMETRIC_KEY = some "true")) (bio : Bool) :
    authenticateForHiddenNotes bio (setHiddenNotesPassword freshSalt x st) (some x) = true := by
  simp [authenticateForHiddenNotes, getHiddenNotesSettings, hidden_set_pw,
    hidden_set_salt, hidden_set_bio, hbio, verifyHiddenNotesPassword, verifyPassword,
    jsOrUndef, hashPasswordSecure, jsTruthy, hx, hsalt, hashPasswordAsync_ne_empty]

theorem auth_hidden_after_set_wrong (st : LS) (x y freshSalt : String)
    (_hx : x ≠ "") (hxy : y ≠ x) (hsalt : freshSalt ≠ "")
    (hbio : ¬(st HIDDEN_NOTES_USE_BIOMETRIC_KEY = some "true")) (bio : Bool) :
    authenticateForHiddenNotes bio (setHiddenNotesPassword freshSalt x st) (some y) = false := by
  by_cases hy : y = ""
  · subst hy
    simp [authenticateForHiddenNotes, getHiddenNotesSettings, hidden_set_pw,
      hidden_set_bio, hbio, jsTruthy, hashPasswordAsync_ne_empty]
  · have hne : hashPasswordAsync y freshSalt ≠ hashPasswordAsync x freshSalt :=
      fun he => hxy (hashPasswordAsync_inj freshSalt y x he)
    simp [authenticateForHiddenNotes, getHiddenNotesSettings, hidden_set_pw,
      hidden_set_salt, hidden_set_bio, hbio, verifyHiddenNotesPassword, verifyPassword,
      jsOrUndef, hashPasswordSecure, jsTruthy, hy, hsalt, hashPasswordAsync_ne_empty, hne]

theorem note_set_prot (st : LS) (noteId x freshSalt : String) (hx : x ≠ "")
    (protection : NoteProtection) :
    (setNoteProtection freshSalt noteId protection (some x) st) (getNoteProtectionKey noteId)
      = some (stringifyProtection protection) := by
  simp only [setNoteProtection, jsTruthy_some hx, if_true]
  rw [lsSet_ne _ _ _ _ (noteKeys_prot_salt noteId),
    lsSet_ne _ _ _ _ (noteKeys_prot_pw noteId), lsSet_self]

theorem note_set_pw (st : LS) (noteId x freshSalt : String) (hx : x ≠ "")
    (protection : NoteProtection) :
    (setNoteProtection freshSalt noteId protection (some x) st) (getNotePasswordKey noteId)
      = some (hashPasswordAsync x freshSalt) := by
  simp only [setNoteProtection, jsTruthy_some hx, if_true]
  rw [lsSet_ne _ _ _ _ (noteKeys_pw_salt noteId), lsSet_self]
  simp [hashPasswordSecure, jsTruthy]

theorem note_set_salt (st : LS) (noteId x freshSalt : String) (hx : x ≠ "")
    (protection : NoteProtection) :
    (setNoteProtection freshSalt noteId protection (some x) st) (getNoteSaltKey noteId)
      = some freshSalt := by
  simp only [setNoteProtection, jsTruthy_some hx, if_true]
  rw [lsSet_self]
  simp [hashPasswordSecure, jsTruthy]

theorem note_get_after_set (st : LS) (noteId x freshSalt : String) (hx : x ≠ "")
    (protection : NoteProtection) :
    getNoteProtection (setNoteProtection freshSalt noteId protection (some x) st) noteId
      = protection := by
  simp [getNoteProtection, note_set_prot st noteId x freshSalt hx, parse_stringify]

theorem auth_note_after_set_correct (st : LS) (noteId x freshSalt : String)
    (hx : x ≠ "") (hsalt : freshSalt ≠ "") (bio : Bool) :
    authenticateForNote bio (setNoteProtection freshSalt noteId ⟨true, false⟩ (some x) st)
      noteId (some x) = true := by
  simp [authenticateForNote, note_get_after_set st noteId x freshSalt hx,
    verifyNotePassword, verifyPassword, jsOrUndef, hashPasswordSecure, jsTruthy,
    note_set_pw st noteId x freshSalt hx, note_set_salt st noteId x freshSalt hx,
    hx, hsalt, hashPasswordAsync_ne_empty]

theorem auth_note_after_set_wrong (st : LS) (noteId x y freshSalt : String)
    (hx : x ≠ "") (hxy : y ≠ x) (hsalt : freshSalt ≠ "") (bio : Bool) :
    authenticateForNote bio (setNoteProtection freshSalt noteId ⟨true, false⟩ (some x) st)
      noteId (some y) = false := by
  by_cases hy : y = ""
  · subst hy
    simp [authenticateForNote, note_get_after_set st noteId x freshSalt hx, jsTruthy]
  · have hne : hashPasswordAsync y freshSalt ≠ hashPasswordAsync x freshSalt :=
      fun he => hxy (hashPasswordAsync_inj freshSalt y x he)
    simp [authenticateForNote, note_get_after_set st noteId x freshSalt hx,
      verifyNotePassword, verifyPassword, jsOrUndef, hashPasswordSecure, jsTruthy,
      note_set_pw st noteId x freshSalt hx, note_set_salt st noteId x freshSalt hx,
      hy, hsalt, hashPasswordAsync_ne_empty, hne]

theorem auth_note_after_remove (st : LS) (noteId : String) (bio : Bool) (p : Option String) :
    authenticateForNote bio (removeNoteProtection st noteId) noteId p = true := by
  have hprot : (removeNoteProtection st noteId) (getNoteProtectionKey noteId) = none := by
    unfold removeNoteProtection
    rw [lsRemove_ne _ _ _ (noteKeys_prot_salt noteId),
      lsRemove_ne _ _ _ (noteKeys_prot_pw noteId), lsRemove_self]
  simp [authenticateForNote, getNoteProtection, hprot]

/-- Claim C2 (amended): a scope whose stored state carries no (truthy)
password hash and has biometrics disabled authenticates trivially for
every password argument, including none — for the global hidden-notes
scope exactly as claimed, and for a per-note scope provided the stored
protection record's `hasPassword` flag is also false.  (As claimed —
"regardless of the per-note record's `hasPassword` field" — the per-note
half fails: `authenticateForNote` is driven by the record flags, not by
the presence of a stored hash, so a record claiming a password with no
hash stored denies access; see the counterexample.) -/
theorem unprotected_scope_authenticates (st : LS) (noteId : String)
    (h1 : jsTruthy (st HIDDEN_NOTES_PASSWORD_KEY) = false)
    (h2 : ¬(st HIDDEN_NOTES_USE_BIOMETRIC_KEY = some "true"))
    (h3 : getNoteProtection st noteId = ⟨false, false⟩) :
    ∀ (bio : Bool) (password : Option String),
      authenticateForHiddenNotes bio st password = true
      ∧ authenticateForNote bio st noteId password = true := by
  intro bio password
  constructor
  · simp [authenticateForHiddenNotes, getHiddenNotesSettings, h1, h2]
  · simp [authenticateForNote, h3]

/-- Claim C2 counterexample: a per-note protection record with
`hasPassword := true` and `useBiometric := false` stored while no password
hash exists for the note — the scope's stored state has no hash and
biometrics disabled, yet authentication denies every password, against
the claim's "regardless of the record's hasPassword field". -/
theorem unprotected_scope_counterexample :
    (setNoteProtection "s1" "n1" ⟨true, false⟩ none lsEmpty) (getNotePasswordKey "n1") = none
    ∧ (getNoteProtection (setNoteProtection "s1" "n1" ⟨true, false⟩ none lsEmpty)
        "n1").useBiometric = false
    ∧ authenticateForNote false (setNoteProtection "s1" "n1" ⟨true, false⟩ none lsEmpty)
        "n1" (some "pw") = false
    ∧ authenticateForNote false (setNoteProtection "s1" "n1" ⟨true, false⟩ none lsEmpty)
        "n1" none = false := by
  decide

/-- Claim C2 witness: the trivially-authenticating empty store. -/
theorem unprotected_scope_witness :
    jsTruthy (lsEmpty HIDDEN_NOTES_PASSWORD_KEY) = false
    ∧ ¬(lsEmpty HIDDEN_NOTES_USE_BIOMETRIC_KEY = some "true")
    ∧ getNoteProtection lsEmpty "n1" = ⟨false, false⟩
    ∧ (authenticateForHiddenNotes true lsEmpty (some "guess") = true
      ∧ authenticateForNote true lsEmpty "n1" (some "guess") = true) :=
  ⟨by decide, by decide, by decide,
    unprotected_scope_authenticates lsEmpty "n1" (by decide) (by decide) (by decide)
      true (some "guess")⟩

/-- Claim C3 (amended): for every scope and every pair of distinct
passwords `x ≠ y` with `x` nonempty, after setting the password to `x`
(fresh nonempty platform salt, biometrics disabled) authentication with
`x` succeeds and with `y` fails; and after clearing the scope's
protection, authentication succeeds for every password including none.
(As stated over *every* password `x` the claim fails for `x = ""`: an
empty supplied password is falsy, so the password fallback never runs and
authentication denies even the just-set password — see the
counterexample.) -/
theorem credential_lifecycle (st : LS) (noteId x y freshSalt : String)
    (hx : x ≠ "") (hxy : y ≠ x) (hsalt : freshSalt ≠ "")
    (hbio : ¬(st HIDDEN_NOTES_USE_BIOMETRIC_KEY = some "true")) :
    ∀ bio : Bool,
      authenticateForHiddenNotes bio (setHiddenNotesPassword freshSalt x st) (some x) = true
      ∧ authenticateForHiddenNotes bio (setHiddenNotesPassword freshSalt x st) (some y) = false
      ∧ (∀ (st' : LS) (p : Option String),
          authenticateForHiddenNotes bio (clearHiddenNotesProtection st') p = true)
      ∧ authenticateForNote bio
          (setNoteProtection freshSalt noteId ⟨true, false⟩ (some x) st) noteId (some x) = true
      ∧ authenticateForNote bio
          (setNoteProtection freshSalt noteId ⟨true, false⟩ (some x) st) noteId (some y) = false
      ∧ (∀ (st' : LS) (p : Option String),
          authenticateForNote bio (removeNoteProtection st' noteId) noteId p = true) := by
  intro bio
  exact ⟨auth_hidden_after_set_correct st x freshSalt hx hsalt hbio bio,
    auth_hidden_after_set_wrong st x y freshSalt hx hxy hsalt hbio bio,
    fun st' p => auth_hidden_after_clear st' bio p,
    auth_note_after_set_correct st noteId x freshSalt hx hsalt bio,
    auth_note_after_set_wrong st noteId x y freshSalt hx hxy hsalt bio,
    fun st' p => auth_note_after_remove st' noteId bio p⟩

/-- Claim C3 counterexample: setting the empty string as the password and
then authenticating with that same password is denied (the empty supplied
password is falsy and never reaches verification), so the claimed
lifecycle fails for the password pair `x = ""`, `y = "a"`. -/
theorem credential_lifecycle_counterexample :
    authenticateForHiddenNotes false (setHiddenNotesPassword "s1" "" lsEmpty) (some "")
      = false := by
  decide

/-- Claim C3 witness: the lifecycle at concrete passwords and salt. -/
theorem credential_lifecycle_witness :
    ("orange17" : String) ≠ "" ∧ ("wrong" : String) ≠ "orange17" ∧ ("ab12" : String) ≠ ""
    ∧ ¬(lsEmpty HIDDEN_NOTES_USE_BIOMETRIC_KEY = some "true")
    ∧ (authenticateForHiddenNotes false (setHiddenNotesPassword "ab12" "orange17" lsEmpty)
          (some "orange17") = true
      ∧ authenticateForHiddenNotes false (setHiddenNotesPassword "ab12" "orange17" lsEmpty)
          (some "wrong") = false
      ∧ (∀ (st' : LS) (p : Option String),
          authenticateForHiddenNotes false (clearHiddenNotesProtection st') p = true)
      ∧ authenticateForNote false
          (setNoteProtection "ab12" "n1" ⟨true, false⟩ (some "orange17") lsEmpty) "n1"
          (some "orange17") = true
      ∧ authenticateForNote false
          (setNoteProtection "ab12" "n1" ⟨true, false⟩ (some "orange17") lsEmpty) "n1"
          (some "wrong") = false
      ∧ (∀ (st' : LS) (p : Option String),
          authenticateForNote false (removeNoteProtection st' "n1") "n1" p = true)) :=
  ⟨by decide, by decide, by decide, by decide,
    credential_lifecycle lsEmpty "n1" "orange17" "wrong" "ab12"
      (by decide) (by decide) (by decide) (by decide) false⟩

/-- Claim C6: for any scope whose stored state has both a password
configured and biometrics enabled, a biometric-gate verdict of `true`
makes authentication succeed with no password argument (and with any
password argument), without the stored password hash being consulted: the
store `st` is arbitrary apart from the two flags, so the result is
independent of whatever hash is stored, and the password branch of the
source is only reached when the biometric attempt failed or the flag is
off. -/
theorem biometric_precedence (st : LS) (noteId : String)
    (hpH : jsTruthy (st HIDDEN_NOTES_PASSWORD_KEY) = true)
    (hbH : st HIDDEN_NOTES_USE_BIOMETRIC_KEY = some "true")
    (hpN : (getNoteProtection st noteId).hasPassword = true)
    (hbN : (getNoteProtection st noteId).useBiometric = true) :
    ∀ password : Option String,
      authenticateForHiddenNotes true st password = true
      ∧ authenticateForNote true st noteId password = true := by
  intro password
  constructor
  · simp [authenticateForHiddenNotes, getHiddenNotesSettings, hpH, hbH]
  · simp [authenticateForNote, hpN, hbN]

/-- Claim C6 witness: a store with password and biometric configured on
both scopes; with a biometric verdict of `true`, access is granted with no
password supplied. -/
theorem biometric_precedence_witness :
    jsTruthy ((setHiddenNotesBiometric true
        (setNoteProtection "s2" "n1" ⟨true, true⟩ (some "pw")
          (setHiddenNotesPassword "s1" "pw" lsEmpty))) HIDDEN_NOTES_PASSWORD_KEY) = true
    ∧ (setHiddenNotesBiometric true
        (setNoteProtection "s2" "n1" ⟨true, true⟩ (some "pw")
          (setHiddenNotesPassword "s1" "pw" lsEmpty))) HIDDEN_NOTES_USE_BIOMETRIC_KEY
        = some "true"
    ∧ (getNoteProtection (setHiddenNotesBiometric true
        (setNoteProtection "s2" "n1" ⟨true, true⟩ (some "pw")
          (setHiddenNotesPassword "s1" "pw" lsEmpty))) "n1").hasPassword = true
    ∧ (getNoteProtection (setHiddenNotesBiometric true
        (setNoteProtection "s2" "n1" ⟨true, true⟩ (some "pw")
          (setHiddenNotesPassword "s1" "pw" lsEmpty))) "n1").useBiometric = true
    ∧ (authenticateForHiddenNotes true (setHiddenNotesBiometric true
          (setNoteProtection "s2" "n1" ⟨true, true⟩ (some "pw")
            (setHiddenNotesPassword "s1" "pw" lsEmpty))) none = true
      ∧ authenticateForNote true (setHiddenNotesBiometric true
          (setNoteProtection "s2" "n1" ⟨true, true⟩ (some "pw")
            (setHiddenNotesPassword "s1" "pw" lsEmpty))) "n1" none = true) :=
  ⟨by decide, by decide, by decide, by decide,
    biometric_precedence (setHiddenNotesBiometric true
        (setNoteProtection "s2" "n1" ⟨true, true⟩ (some "pw")
          (setHiddenNotesPassword "s1" "pw" lsEmpty))) "n1"
      (by decide) (by decide) (by decide) (by decide) none⟩

/-- Claim C7: `verifyPassword` with a salt present (a stored salt being
"present" exactly when truthy, the empty string being how absence is
persisted) compares the salted derivation of the candidate against the
stored hash; with no salt it compares the legacy unsalted `hashPassword`;
hence a credential stored without a salt and created via the legacy hash
still verifies with the same plaintext password. -/
theorem verify_password_formats (p h salt : String) (hs : salt ≠ "") :
    verifyPassword p h (some salt) = (hashPasswordAsync p salt == h)
    ∧ verifyPassword p h none = (hashPassword p == h)
    ∧ verifyPassword p (hashPassword p) none = true := by
  refine ⟨?_, rfl, ?_⟩
  · simp [verifyPassword, hashPasswordSecure, jsTruthy, hs]
  · simp [verifyPassword, jsTruthy]

/-- Claim C7 witness: the format dispatch at concrete values. -/
theorem verify_password_formats_witness :
    ("s1" : String) ≠ ""
    ∧ (verifyPassword "pw" "h0" (some "s1") = (hashPasswordAsync "pw" "s1" == "h0")
      ∧ verifyPassword "pw" "h0" none = (hashPassword "pw" == "h0")
      ∧ verifyPassword "pw" (hashPassword "pw") none = true) :=
  ⟨by decide, verify_password_formats "pw" "h0" "s1" (by decide)⟩

end NotesCore
